import Mathlib

/-!
Verification of the catalog service in src/routes/books.js.

The route handlers are shallowly embedded: a JSON value is `Jv`, a JS object
(request body, stored document) is an ordered association list `Obj`, and the
document store is a list of stored documents.  `JSON.stringify`, object spread
and property assignment are modelled by `stringifyObj`, `spread` and `setKey`
below, following JavaScript semantics (keys kept in insertion order, fields
holding `undefined` omitted from serialization).

External collaborators (the mongoose model in src/models/book.js, the
document-store driver and the qrcode encoder are not part of src/) are
modelled from the spec where the handlers depend on them; each such
definition carries a doc comment saying so.
-/

set_option maxHeartbeats 1000000
set_option maxRecDepth 100000

namespace Books

/-- A JSON value as it travels through the handlers.  Numbers are carried as
their JSON literal text, which is exactly what `JSON.stringify` re-emits. -/
inductive Jv where
  | str (s : String)
  | num (lit : String)
  | boolean (b : Bool)
  | null
  deriving DecidableEq, Repr

/-- A JavaScript object: ordered key/value pairs (insertion order). -/
abbrev Obj := List (String × Jv)

/-- The document store: the list of persisted book documents, in insertion
order (the store's natural order). -/
abbrev Store := List Obj

/-- Field access `body.k` / `doc.k`: first binding of the key, if any. -/
def getF (o : Obj) (k : String) : Option Jv :=
  List.lookup k o

/-- JavaScript truthiness test `!x` on an (optional) field value. -/
def isZeroNumLit (lit : String) : Bool :=
  lit.toList.all (fun c => c == '0' || c == '.' || c == '-' || c == '+')

/-- Falsiness of a destructured request-body field, as used by the guard
`if (!title || !author || !publisher || !isbn)`: absent (`undefined`),
`null`, the empty string, `false` and numeric zero are falsy. -/
def jsFalsy : Option Jv → Bool
  | none => true
  | some (.str s) => s.isEmpty
  | some (.num lit) => isZeroNumLit lit
  | some (.boolean b) => !b
  | some .null => true

/-- Minimal JSON string escaping as performed by `JSON.stringify`. -/
def escapeChar (c : Char) : String :=
  if c == '"' then "\\\""
  else if c == '\\' then "\\\\"
  else if c == '\n' then "\\n"
  else if c == '\r' then "\\r"
  else if c == '\t' then "\\t"
  else String.singleton c

/-- Escape a string for inclusion in a JSON document. -/
def escapeJson (s : String) : String :=
  String.join (s.toList.map escapeChar)

/-- Serialization of a single JSON value, `JSON.stringify` style. -/
def stringifyJv : Jv → String
  | .str s => "\"" ++ escapeJson s ++ "\""
  | .num lit => lit
  | .boolean true => "true"
  | .boolean false => "false"
  | .null => "null"

/-- One `"key":value` member of a serialized object. -/
def stringifyPair (kv : String × Jv) : String :=
  "\"" ++ escapeJson kv.1 ++ "\":" ++ stringifyJv kv.2

/-- The serialization `JSON.stringify(o)` of a flat object: members in key
insertion order, wrapped in braces. -/
def stringifyObj (o : Obj) : String :=
  "\x7b" ++ String.intercalate "," (o.map stringifyPair) ++ "\x7d"

/-- The list `fieldsForQRCode` from the edit handler; the add handler builds
its QR payload from the same ten fields in the same order. -/
def fieldsForQRCode : List String :=
  ["title", "author", "publisher", "exam", "subject", "description",
   "price", "language", "isbn", "publicationDate"]

/-- Response sent back to the client. -/
inductive Resp where
  | json (status : Nat) (body : Obj)
  | jsonList (status : Nat) (body : List Obj)
  | text (status : Nat) (msg : String)
  deriving DecidableEq, Repr

/-- HTTP status of a response. -/
def Resp.status : Resp → Nat
  | .json s _ => s
  | .jsonList s _ => s
  | .text s _ => s

/-- Modelled from the spec: the QR-code encoder (the external `qrcode`
package's `toDataURL`) is out of scope and specified as a pure function
from the payload text to an encoded-image text payload; it is modelled as
tagging the payload with a data-URL prefix, which keeps it injective. -/
def toDataURL (payload : String) : String :=
  "data:image/png;base64," ++ payload

/-- The encoder used on the happy path: `toDataURL` never failing. -/
def okEncode : String → Except Unit String :=
  fun s => .ok (toDataURL s)

/-- Modelled from the spec: primary ids are opaque store-assigned
identifiers (MongoDB ObjectIds); a syntactically valid id is 24 hex
characters.  The driver rejects a query on `_id` with a syntactically
invalid id by throwing (an infrastructure failure), which the handlers'
catch blocks turn into a 500 response. -/
def isHexChar (c : Char) : Bool :=
  c.isDigit || ('a' ≤ c && c ≤ 'f') || ('A' ≤ c && c ≤ 'F')

/-- Syntactic validity of a primary id (see `isHexChar`). -/
def isValidObjectId (s : String) : Bool :=
  s.length == 24 && s.toList.all isHexChar

/-- The regex test `idOrIsbn.match(/^[0-9]+$/)`. -/
def digitsOnly (s : String) : Bool :=
  !s.isEmpty && s.toList.all Char.isDigit

/-- The store query `findOne({k: v})`: first document whose field `k`
equals `v`. -/
def findOne (st : Store) (k : String) (v : Jv) : Option Obj :=
  st.find? (fun o => getF o k == some v)

/-- The object formed by reading each key of `ks` through `f`, dropping the
keys `f` has no value for.  This is how a JavaScript object literal built
from destructured (possibly `undefined`) variables serializes. -/
def projFields (ks : List String) (f : String → Option Jv) : Obj :=
  ks.filterMap (fun k => (f k).map (fun v => (k, v)))

/-- The object `{title, author, ..., publicationDate}` built by the add
handler for `JSON.stringify`: the ten QR fields in source order, keys whose
destructured value is `undefined` (absent from the body) omitted, exactly
as `JSON.stringify` omits `undefined` members. -/
def qrObjOfBody (body : Obj) : Obj :=
  projFields fieldsForQRCode (getF body)

/-- The validation guard of the add handler. -/
def requiredMissing (body : Obj) : Bool :=
  jsFalsy (getF body "title") || jsFalsy (getF body "author") ||
    jsFalsy (getF body "publisher") || jsFalsy (getF body "isbn")

/-- The document persisted by `new Book({...})` + `save()` and returned by
`toObject()`: the store-assigned `_id`, the submitted QR fields (absent ones
are not persisted), the generated `qrCode`, and `addedDate`.  Modelled from
the spec as far as the schema goes (src/models/book.js is not in src/): the
spec's data model lists exactly these attributes. -/
def newBookObj (body : Obj) (qrCode : String) (newId : String) (now : String) : Obj :=
  ("_id", .str newId) :: qrObjOfBody body
    ++ [("qrCode", .str qrCode), ("addedDate", .str now)]

/-- Handler of `POST /add`.  `encode` is the encoder call (which may
reject), `saveOk` models whether the store write succeeds, `newId` the
store-assigned id and `now` the current wall-clock time. -/
def add (encode : String → Except Unit String) (saveOk : Bool)
    (newId : String) (now : String) (st : Store) (body : Obj) : Resp × Store :=
  if requiredMissing body then
    (.text 400 "Title, author, publisher, and ISBN are required.", st)
  else
    let qrData := stringifyObj (qrObjOfBody body)
    match encode qrData with
    | .error _ => (.text 500 "Error adding book", st)
    | .ok qrCode =>
      let book := newBookObj body qrCode newId now
      if saveOk then (.json 201 book, st ++ [book])
      else (.text 500 "Error adding book", st)

/-- Sort key of a document for the store's field sort: the field's text
(string fields and date fields are stored as text here, number literals
compare as their literal text); a missing field sorts first. -/
def fieldSortKey (o : Obj) (k : String) : String :=
  match getF o k with
  | some (.str s) => s
  | some (.num lit) => lit
  | _ => ""

/-- Lexicographic comparison of character lists by code point, the model of
the store's binary ordering of text values. -/
def charListLe : List Char → List Char → Bool
  | [], _ => true
  | _ :: _, [] => false
  | a :: as, b :: bs =>
    if a.toNat < b.toNat then true
    else if b.toNat < a.toNat then false
    else charListLe as bs

/-- Lexicographic comparison of two text values (see `charListLe`). -/
def strLeB (a b : String) : Bool :=
  charListLe a.data b.data

/-- Ascending comparison of documents on field `k`. -/
def recLe (k : String) (a b : Obj) : Prop :=
  strLeB (fieldSortKey a k) (fieldSortKey b k) = true

/-- Descending comparison of documents on field `k`. -/
def recGe (k : String) (a b : Obj) : Prop :=
  strLeB (fieldSortKey b k) (fieldSortKey a k) = true

instance (k : String) : DecidableRel (recLe k) := fun a b => by
  unfold recLe; infer_instance

instance (k : String) : DecidableRel (recGe k) := fun a b => by
  unfold recGe; infer_instance

/-- The store's `find().sort({[sortBy]: order})`: all documents ordered by
the field, ascending or descending. -/
def sortedRecords (k : String) (asc : Bool) (st : Store) : Store :=
  if asc then st.insertionSort (recLe k) else st.insertionSort (recGe k)

/-- Handler of `GET /sort`.  The query parameters arrive as text; an absent
parameter behaves exactly like any text outside the accepted set, since the
only use is the membership test. -/
def listSorted (st : Store) (sortBy : String) (ord : String) : Resp :=
  if !(["addedDate", "title"].contains sortBy) then
    .text 400 "Invalid sort field"
  else if !(["asc", "desc"].contains ord) then
    .text 400 "Invalid sort order"
  else
    .jsonList 200 (sortedRecords sortBy (ord == "asc") st)

/-- Handler of `GET /detail/:idOrIsbn`: digits-only keys query by `isbn`,
other keys by `_id` (where a malformed id makes the driver throw, caught as
a 500). -/
def getByIdOrIsbn (st : Store) (key : String) : Resp :=
  if digitsOnly key then
    match findOne st "isbn" (.str key) with
    | some b => .json 200 b
    | none => .text 404 "Book not found"
  else if !isValidObjectId key then
    .text 500 "Error fetching book details"
  else
    match findOne st "_id" (.str key) with
    | some b => .json 200 b
    | none => .text 404 "Book not found"

/-- Membership test used when deleting: the document carrying the id. -/
def hasId (id : String) (o : Obj) : Bool :=
  getF o "_id" == some (.str id)

/-- Handler of `DELETE /delete/:id` (`findByIdAndDelete`). -/
def deleteById (st : Store) (id : String) : Resp × Store :=
  if !isValidObjectId id then
    (.text 500 "Error deleting book", st)
  else
    match findOne st "_id" (.str id) with
    | some _ => (.text 200 "Book deleted successfully", st.eraseP (hasId id))
    | none => (.text 404 "Book not found", st)

/-- JavaScript property assignment / override `o[k] = v`: replaces the
binding in place when the key is present, appends it otherwise. -/
def setKey : Obj → String → Jv → Obj
  | [], k, v => [(k, v)]
  | (k1, v1) :: rest, k, v =>
    if k1 = k then (k, v) :: rest
    else (k1, v1) :: setKey rest k v

/-- JavaScript object spread `{...base, ...upd}`. -/
def spread (base upd : Obj) : Obj :=
  upd.foldl (fun acc kv => setKey acc kv.1 kv.2) base

/-- The guard `Object.keys(updatedDetails).some(f => fieldsForQRCode.includes(f))`. -/
def shouldUpdateQRCode (upd : Obj) : Bool :=
  upd.any (fun kv => fieldsForQRCode.contains kv.1)

/-- Modelled from the spec: the schema paths of the book model
(src/models/book.js is not in src/); `findByIdAndUpdate` applies only
schema paths of the partial update (mongoose strict mode), which per the
spec's data model are the ten descriptive fields plus `qrCode` and
`addedDate`. -/
def schemaFields : List String :=
  fieldsForQRCode ++ ["qrCode", "addedDate"]

/-- The store update `findByIdAndUpdate(id, upd, {new: true})` on a loaded
document: set each submitted schema path over the existing document. -/
def applyUpdate (book upd : Obj) : Obj :=
  spread book (upd.filter (fun kv => schemaFields.contains kv.1))

/-- Handler of `PUT /edit/:id`: load the document, regenerate `qrCode` over
`JSON.stringify({...book.toObject(), ...updatedDetails})` when a QR field is
among the submitted keys, then apply the partial update. -/
def edit (encode : String → Except Unit String) (st : Store)
    (id : String) (upd : Obj) : Resp × Store :=
  if !isValidObjectId id then
    (.text 500 "Error editing book", st)
  else
    match findOne st "_id" (.str id) with
    | none => (.text 404 "Book not found", st)
    | some book =>
      let withQr : Except Unit Obj :=
        if shouldUpdateQRCode upd then
          match encode (stringifyObj (spread book upd)) with
          | .error e => .error e
          | .ok qr => .ok (setKey upd "qrCode" (.str qr))
        else .ok upd
      match withQr with
      | .error _ => (.text 500 "Error editing book", st)
      | .ok upd2 =>
        let updatedBook := applyUpdate book upd2
        (.json 200 updatedBook,
          st.map (fun o => if hasId id o then updatedBook else o))

/-- The canonical serialization the spec's invariant speaks about: the JSON
serialization of exactly the QR-relevant fields as currently stored. -/
def canonicalQr (o : Obj) : String :=
  stringifyObj (projFields fieldsForQRCode (getF o))

/-- The spec's invariant on a stored document: `qrCode` is the encoder's
output over `canonicalQr` of the document. -/
def qrConsistent (o : Obj) : Bool :=
  getF o "qrCode" == some (.str (toDataURL (canonicalQr o)))

/-- A field value that is missing or empty, the situation the spec's
validation constraint speaks about. -/
def missingOrEmpty (v : Option Jv) : Prop :=
  v = none ∨ v = some (.str "")

/-- An encoder call that rejects, for exercising the encoder-failure path. -/
def failEncode : String → Except Unit String :=
  fun _ => .error ()

/-- A concrete add payload: the four required fields, optional ones absent. -/
def demoBody : Obj :=
  [("title", .str "T"), ("author", .str "A"), ("publisher", .str "P"),
   ("isbn", .str "9781234567890")]

/-- A concrete store-assigned id (24 hex characters). -/
def demoId : String := "5f4e3d2c1b0a090807060504"

/-- A concrete creation timestamp. -/
def demoNow : String := "2024-01-01T00:00:00.000Z"

/-- The store after adding `demoBody` to an empty store. -/
def demoStore : Store := (add okEncode true demoId demoNow [] demoBody).2

/-- The single document of `demoStore`. -/
def demoBook : Obj := demoStore.headI

/-- A concrete partial update touching the QR-relevant field `title`. -/
def demoUpd : Obj := [("title", Jv.str "U")]

/-- The document after editing `demoStore`'s book with `{title: "U"}`. -/
def demoEditedTitle : Obj := (edit okEncode demoStore demoId demoUpd).2.headI

/-- The document after editing `demoStore`'s book with `{price: 29.99}`. -/
def demoEditedPrice : Obj :=
  (edit okEncode demoStore demoId [("price", Jv.num "29.99")]).2.headI

/-- A three-document store with titles B, A, C, in that insertion order. -/
def demoSortStore : Store :=
  [[("title", Jv.str "B")], [("title", Jv.str "A")], [("title", Jv.str "C")]]

/-! ### Field-lookup lemmas -/

theorem getF_nil (k : String) : getF [] k = none := rfl

theorem getF_cons (k k1 : String) (v1 : Jv) (rest : Obj) :
    getF ((k1, v1) :: rest) k = if k = k1 then some v1 else getF rest k := by
  by_cases h : k = k1
  · have hb : (k == k1) = true := beq_iff_eq.mpr h
    simp [getF, List.lookup, hb, h]
  · have hb : (k == k1) = false := beq_eq_false_iff_ne.mpr h
    simp [getF, List.lookup, hb, h]

theorem getF_append (k : String) (l1 l2 : Obj) :
    getF (l1 ++ l2) k = (getF l1 k).or (getF l2 k) := by
  induction l1 with
  | nil => simp [getF_nil]
  | cons kv rest ih =>
    obtain ⟨k1, v1⟩ := kv
    rw [List.cons_append, getF_cons, getF_cons]
    by_cases h : k = k1 <;> simp [h, ih]

theorem getF_projFields_of_not_mem (ks : List String) (f : String → Option Jv)
    (k : String) (hk : k ∉ ks) : getF (projFields ks f) k = none := by
  induction ks with
  | nil => rfl
  | cons k1 ks ih =>
    have hne : k ≠ k1 := fun h => hk (h ▸ List.mem_cons_self k1 ks)
    have hk' : k ∉ ks := fun h => hk (List.mem_cons_of_mem k1 h)
    cases hfk : f k1 with
    | none => simpa [projFields, hfk] using ih hk'
    | some v =>
      simp only [projFields, List.filterMap_cons, hfk, Option.map_some']
      rw [getF_cons, if_neg hne]
      exact ih hk'

theorem getF_projFields (ks : List String) (f : String → Option Jv)
    (k : String) (hk : k ∈ ks) : getF (projFields ks f) k = f k := by
  induction ks with
  | nil => cases hk
  | cons k1 ks ih =>
    rcases List.mem_cons.mp hk with h | h
    · subst h
      cases hfk : f k with
      | none =>
        simp only [projFields, List.filterMap_cons, hfk]
        by_cases hmem : k ∈ ks
        · exact (ih hmem).trans hfk
        · exact getF_projFields_of_not_mem ks f k hmem
      | some v =>
        simp only [projFields, List.filterMap_cons, hfk, Option.map_some']
        rw [getF_cons, if_pos rfl]
    · cases hfk : f k1 with
      | none => simpa [projFields, hfk] using ih h
      | some v1 =>
        simp only [projFields, List.filterMap_cons, hfk, Option.map_some']
        by_cases he : k = k1
        · subst he; rw [getF_cons, if_pos rfl, ← hfk]
        · rw [getF_cons, if_neg he]; exact ih h

theorem keys_projFields (ks : List String) (f : String → Option Jv) :
    (projFields ks f).map Prod.fst = ks.filter (fun k => (f k).isSome) := by
  induction ks with
  | nil => rfl
  | cons k1 ks ih =>
    unfold projFields at ih ⊢
    cases hfk : f k1 <;>
      simp [List.filterMap_cons, List.filter_cons, hfk, ih]

/-! ### Lemmas about the persisted add document -/

theorem qr_field_ne_special (k : String) (hk : k ∈ fieldsForQRCode) :
    k ≠ "_id" ∧ k ≠ "qrCode" ∧ k ≠ "addedDate" := by
  fin_cases hk <;> refine ⟨?_, ?_, ?_⟩ <;> decide

theorem getF_newBookObj_field (body : Obj) (qr newId now : String) (k : String)
    (hk : k ∈ fieldsForQRCode) :
    getF (newBookObj body qr newId now) k = getF body k := by
  obtain ⟨h1, h2, h3⟩ := qr_field_ne_special k hk
  have htail : getF [("qrCode", Jv.str qr), ("addedDate", Jv.str now)] k = none := by
    rw [getF_cons, if_neg h2, getF_cons, if_neg h3, getF_nil]
  unfold newBookObj
  rw [getF_append, htail, Option.or_none, getF_cons, if_neg h1, qrObjOfBody,
    getF_projFields fieldsForQRCode (getF body) k hk]

theorem getF_newBookObj_qrCode (body : Obj) (qr newId now : String) :
    getF (newBookObj body qr newId now) "qrCode" = some (.str qr) := by
  unfold newBookObj
  rw [getF_append, getF_cons, if_neg (by decide), qrObjOfBody,
    getF_projFields_of_not_mem fieldsForQRCode (getF body) "qrCode" (by decide)]
  rw [getF_cons, if_pos rfl]
  rfl

theorem getF_newBookObj_addedDate (body : Obj) (qr newId now : String) :
    getF (newBookObj body qr newId now) "addedDate" = some (.str now) := by
  unfold newBookObj
  rw [getF_append, getF_cons, if_neg (by decide), qrObjOfBody,
    getF_projFields_of_not_mem fieldsForQRCode (getF body) "addedDate" (by decide)]
  rw [getF_cons, if_neg (by decide), getF_cons, if_pos rfl]
  rfl

theorem canonicalQr_newBookObj (body : Obj) (qr newId now : String) :
    canonicalQr (newBookObj body qr newId now) = stringifyObj (qrObjOfBody body) := by
  unfold canonicalQr qrObjOfBody
  congr 1
  unfold projFields
  exact List.filterMap_congr (fun k hk => by
    rw [getF_newBookObj_field body qr newId now k hk])

theorem qrConsistent_newBookObj (body : Obj) (newId now : String) :
    qrConsistent
      (newBookObj body (toDataURL (stringifyObj (qrObjOfBody body))) newId now) = true := by
  unfold qrConsistent
  rw [getF_newBookObj_qrCode, canonicalQr_newBookObj]
  simp

theorem add_eq_of_valid (newId now : String) (st : Store) (body : Obj)
    (h : requiredMissing body = false) :
    add okEncode true newId now st body =
      (.json 201 (newBookObj body (toDataURL (stringifyObj (qrObjOfBody body))) newId now),
       st ++ [newBookObj body (toDataURL (stringifyObj (qrObjOfBody body))) newId now]) := by
  simp [add, h, okEncode]

/-! ### Lemmas about property assignment, spread and partial update -/

theorem getF_setKey_self (o : Obj) (k : String) (v : Jv) :
    getF (setKey o k v) k = some v := by
  induction o with
  | nil => rw [setKey, getF_cons, if_pos rfl]
  | cons kv rest ih =>
    obtain ⟨k1, v1⟩ := kv
    by_cases h : k1 = k
    · rw [setKey, if_pos h, getF_cons, if_pos rfl]
    · rw [setKey, if_neg h, getF_cons, if_neg (fun he => h he.symm)]
      exact ih

theorem getF_setKey_ne (o : Obj) (k k' : String) (v : Jv) (h : k ≠ k') :
    getF (setKey o k' v) k = getF o k := by
  induction o with
  | nil => rw [setKey, getF_cons, if_neg h, getF_nil]
  | cons kv rest ih =>
    obtain ⟨k1, v1⟩ := kv
    by_cases h1 : k1 = k'
    · rw [setKey, if_pos h1, getF_cons, if_neg h, getF_cons, if_neg (h1 ▸ h)]
    · rw [setKey, if_neg h1, getF_cons, getF_cons, ih]

theorem mem_setKey_self (o : Obj) (k : String) (v : Jv) :
    (k, v) ∈ setKey o k v := by
  induction o with
  | nil => rw [setKey]; exact List.mem_singleton_self _
  | cons kv rest ih =>
    obtain ⟨k1, v1⟩ := kv
    by_cases h : k1 = k
    · rw [setKey, if_pos h]; exact List.mem_cons_self _ _
    · rw [setKey, if_neg h]; exact List.mem_cons_of_mem _ ih

theorem keys_setKey (o : Obj) (k : String) (v : Jv) :
    (setKey o k v).map Prod.fst =
      if k ∈ o.map Prod.fst then o.map Prod.fst else o.map Prod.fst ++ [k] := by
  induction o with
  | nil => simp [setKey]
  | cons kv rest ih =>
    obtain ⟨k1, v1⟩ := kv
    by_cases h : k1 = k
    · subst h
      rw [setKey, if_pos rfl]
      simp
    · rw [setKey, if_neg h]
      by_cases hm : k ∈ rest.map Prod.fst
      · simp only [List.map_cons, ih, if_pos hm]
        rw [if_pos (List.mem_cons_of_mem _ hm)]
      · have : ¬ k ∈ (k1, v1).fst :: rest.map Prod.fst := by
          intro hc
          rcases List.mem_cons.mp hc with hc | hc
          · exact h hc.symm
          · exact hm hc
        simp only [List.map_cons, ih, if_neg hm]
        rw [if_neg this]
        simp

theorem nodup_keys_setKey (o : Obj) (k : String) (v : Jv)
    (h : (o.map Prod.fst).Nodup) : ((setKey o k v).map Prod.fst).Nodup := by
  rw [keys_setKey]
  by_cases hm : k ∈ o.map Prod.fst
  · rwa [if_pos hm]
  · rw [if_neg hm]
    simp [List.nodup_append, h, hm]

theorem spread_cons (base : Obj) (k : String) (v : Jv) (rest : Obj) :
    spread base ((k, v) :: rest) = spread (setKey base k v) rest := rfl

theorem getF_spread_of_not_mem (base upd : Obj) (k : String)
    (h : k ∉ upd.map Prod.fst) : getF (spread base upd) k = getF base k := by
  induction upd generalizing base with
  | nil => rfl
  | cons kv rest ih =>
    obtain ⟨k1, v1⟩ := kv
    have h1 : k ≠ k1 := fun he => h (he ▸ List.mem_cons_self _ _)
    have h2 : k ∉ rest.map Prod.fst := fun hc => h (List.mem_cons_of_mem _ hc)
    rw [spread_cons, ih _ h2, getF_setKey_ne _ _ _ _ h1]

theorem getF_spread_of_mem (base upd : Obj) (k : String) (v : Jv)
    (hnd : (upd.map Prod.fst).Nodup) (hm : (k, v) ∈ upd) :
    getF (spread base upd) k = some v := by
  induction upd generalizing base with
  | nil => cases hm
  | cons kv rest ih =>
    obtain ⟨k1, v1⟩ := kv
    rw [List.map_cons] at hnd
    rcases List.mem_cons.mp hm with he | hm'
    · rw [Prod.mk.injEq] at he
      obtain ⟨hk, hv⟩ := he
      subst hk
      subst hv
      have hknot := (List.nodup_cons.mp hnd).1
      rw [spread_cons, getF_spread_of_not_mem _ _ _ hknot, getF_setKey_self]
    · have hnd' := (List.nodup_cons.mp hnd).2
      rw [spread_cons]
      exact ih _ hnd' hm'

theorem keys_filter_subset (upd : Obj) (p : String × Jv → Bool) (k : String)
    (h : k ∉ upd.map Prod.fst) : k ∉ (upd.filter p).map Prod.fst := by
  intro hc
  rcases List.mem_map.mp hc with ⟨kv, hkv, hfst⟩
  exact h (hfst ▸ List.mem_map_of_mem Prod.fst (List.mem_of_mem_filter hkv))

theorem nodup_keys_filter (upd : Obj) (p : String × Jv → Bool)
    (h : (upd.map Prod.fst).Nodup) : ((upd.filter p).map Prod.fst).Nodup :=
  h.sublist (List.Sublist.map Prod.fst (List.filter_sublist upd))

theorem getF_applyUpdate_of_not_mem (book upd : Obj) (k : String)
    (h : k ∉ upd.map Prod.fst) : getF (applyUpdate book upd) k = getF book k := by
  unfold applyUpdate
  exact getF_spread_of_not_mem _ _ _ (keys_filter_subset _ _ _ h)

theorem getF_applyUpdate_of_mem (book upd : Obj) (k : String) (v : Jv)
    (hnd : (upd.map Prod.fst).Nodup) (hm : (k, v) ∈ upd)
    (hs : schemaFields.contains k = true) :
    getF (applyUpdate book upd) k = some v := by
  unfold applyUpdate
  exact getF_spread_of_mem _ _ _ _ (nodup_keys_filter _ _ hnd)
    (List.mem_filter.mpr ⟨hm, hs⟩)

/-! ### Unfolding equations for the edit handler -/

theorem edit_eq_of_noqr (st : Store) (id : String) (upd book : Obj)
    (hval : isValidObjectId id = true)
    (hfind : findOne st "_id" (.str id) = some book)
    (hq : shouldUpdateQRCode upd = false) :
    edit okEncode st id upd =
      (.json 200 (applyUpdate book upd),
       st.map (fun o => if hasId id o then applyUpdate book upd else o)) := by
  simp [edit, hval, hfind, hq]

theorem edit_eq_of_qr (st : Store) (id : String) (upd book : Obj)
    (hval : isValidObjectId id = true)
    (hfind : findOne st "_id" (.str id) = some book)
    (hq : shouldUpdateQRCode upd = true) :
    edit okEncode st id upd =
      (.json 200 (applyUpdate book
          (setKey upd "qrCode" (.str (toDataURL (stringifyObj (spread book upd)))))),
       st.map (fun o => if hasId id o then
          applyUpdate book
            (setKey upd "qrCode" (.str (toDataURL (stringifyObj (spread book upd)))))
          else o)) := by
  simp [edit, hval, hfind, hq, okEncode]

theorem edit_eq_of_encode_fail (st : Store) (id : String) (upd book : Obj)
    (hval : isValidObjectId id = true)
    (hfind : findOne st "_id" (.str id) = some book)
    (hq : shouldUpdateQRCode upd = true) :
    edit failEncode st id upd = (.text 500 "Error editing book", st) := by
  simp [edit, hval, hfind, hq, failEncode]

/-! ### Lemmas for delete -/

theorem findOne_id_eq (st : Store) (id : String) :
    findOne st "_id" (.str id) = st.find? (hasId id) := rfl

theorem find?_eraseP_self (p : Obj → Bool) (st : Store)
    (h : st.countP p ≤ 1) : (st.eraseP p).find? p = none := by
  induction st with
  | nil => rfl
  | cons o rest ih =>
    by_cases hp : p o
    · rw [List.eraseP_cons_of_pos hp]
      rw [List.countP_cons_of_pos _ _ hp] at h
      have h0 : rest.countP p = 0 := by omega
      exact List.find?_eq_none.mpr fun x hx hpx =>
        (List.countP_eq_zero.mp h0 x hx) hpx
    · rw [List.eraseP_cons_of_neg hp]
      rw [List.countP_cons_of_neg _ _ hp] at h
      rw [List.find?_cons_of_neg _ hp]
      exact ih h

/-! ### Claim C1 -/

/-- Claim C1, counterexample: the invariant "the stored `qrCode` equals the
encoder's output over the canonical serialization of exactly the ten QR
fields as currently stored" is violated after an edit of `title` on a
concrete one-record store. -/
theorem C1_counterexample : qrConsistent demoEditedTitle = false := by decide

/-- Claim C1, amended: after a successful add, the stored record's `qrCode`
is the encoder's output over the canonical serialization of the submitted
QR-relevant fields; after an edit touching a QR-relevant field, `qrCode` is
the encoder's output over the serialization of the entire merged document
(`_id`, `addedDate` and the previous `qrCode` included), not of just the
ten QR fields. -/
theorem C1_theorem (newId now id : String) (st : Store) (body upd book : Obj)
    (hbody : requiredMissing body = false)
    (hval : isValidObjectId id = true)
    (hfind : findOne st "_id" (.str id) = some book)
    (hupd : shouldUpdateQRCode upd = true)
    (hnd : (upd.map Prod.fst).Nodup) :
    qrConsistent
      (newBookObj body (toDataURL (stringifyObj (qrObjOfBody body))) newId now) = true ∧
    (add okEncode true newId now st body).2
      = st ++ [newBookObj body (toDataURL (stringifyObj (qrObjOfBody body))) newId now] ∧
    (edit okEncode st id upd).1
      = .json 200 (applyUpdate book
          (setKey upd "qrCode" (.str (toDataURL (stringifyObj (spread book upd)))))) ∧
    getF (applyUpdate book
          (setKey upd "qrCode" (.str (toDataURL (stringifyObj (spread book upd))))))
        "qrCode"
      = some (.str (toDataURL (stringifyObj (spread book upd)))) := by
  refine ⟨qrConsistent_newBookObj body newId now, ?_, ?_, ?_⟩
  · rw [add_eq_of_valid newId now st body hbody]
  · rw [edit_eq_of_qr st id upd book hval hfind hupd]
  · exact getF_applyUpdate_of_mem _ _ _ _ (nodup_keys_setKey upd "qrCode" _ hnd)
      (mem_setKey_self upd "qrCode" _) (by decide)

/-- Claim C1, witness: the amended statement applied to the concrete store. -/
theorem C1_witness :
    (edit okEncode demoStore demoId demoUpd).1
      = .json 200 (applyUpdate demoBook
          (setKey demoUpd "qrCode"
            (.str (toDataURL (stringifyObj (spread demoBook demoUpd)))))) :=
  (C1_theorem demoId demoNow demoId demoStore demoBody demoUpd demoBook
    (by decide) (by decide) (by decide) (by decide) (by decide)).2.2.1

/-! ### Claim C2 -/

/-- Claim C2, counterexample: editing only `price` does not leave `qrCode`
byte-identical on a concrete store, because `price` is in the code's
`fieldsForQRCode`. -/
theorem C2_counterexample :
    (getF demoEditedPrice "qrCode" == getF demoBook "qrCode") = false := by decide

/-- Claim C2, amended: `price` is one of the code's QR-relevant fields, so
`edit(id, {price: 29.99})` triggers regeneration; `qrCode` is left
byte-identical exactly by edits that submit no QR-relevant field and no
`qrCode` of their own. -/
theorem C2_theorem (st : Store) (id : String) (upd book : Obj)
    (hval : isValidObjectId id = true)
    (hfind : findOne st "_id" (.str id) = some book)
    (hq : shouldUpdateQRCode upd = false)
    (hqr : "qrCode" ∉ upd.map Prod.fst) :
    "price" ∈ fieldsForQRCode ∧
    shouldUpdateQRCode [("price", Jv.num "29.99")] = true ∧
    (edit okEncode st id upd).1 = .json 200 (applyUpdate book upd) ∧
    getF (applyUpdate book upd) "qrCode" = getF book "qrCode" := by
  refine ⟨by decide, by decide, ?_, getF_applyUpdate_of_not_mem book upd "qrCode" hqr⟩
  rw [edit_eq_of_noqr st id upd book hval hfind hq]

/-- Claim C2, witness: an edit touching only `addedDate` (not QR-relevant)
preserves `qrCode` on the concrete store. -/
theorem C2_witness :
    getF (applyUpdate demoBook [("addedDate", Jv.str "2025-06-01T00:00:00.000Z")])
        "qrCode" = getF demoBook "qrCode" :=
  (C2_theorem demoStore demoId [("addedDate", Jv.str "2025-06-01T00:00:00.000Z")]
    demoBook (by decide) (by decide) (by decide) (by decide)).2.2.2

/-! ### Claim C3 -/

/-- Claim C3: an add payload in which any of title, author, publisher or
isbn is missing or empty gets the 400 validation response, and the store is
unchanged, whatever the encoder and store write would have done. -/
theorem C3_theorem (encode : String → Except Unit String) (saveOk : Bool)
    (newId now : String) (st : Store) (body : Obj)
    (h : missingOrEmpty (getF body "title") ∨ missingOrEmpty (getF body "author") ∨
         missingOrEmpty (getF body "publisher") ∨ missingOrEmpty (getF body "isbn")) :
    add encode saveOk newId now st body
      = (.text 400 "Title, author, publisher, and ISBN are required.", st) := by
  have hf : ∀ v, missingOrEmpty v → jsFalsy v = true := by
    intro v hv
    rcases hv with hv | hv <;> rw [hv] <;> rfl
  have hreq : requiredMissing body = true := by
    unfold requiredMissing
    rcases h with h | h | h | h <;> simp [hf _ h]
  simp [add, hreq]

/-- Claim C3, witness: a payload missing `title` is rejected and the empty
store stays empty. -/
theorem C3_witness :
    add okEncode true demoId demoNow [] [("author", Jv.str "A")]
      = (.text 400 "Title, author, publisher, and ISBN are required.", []) :=
  C3_theorem okEncode true demoId demoNow [] [("author", Jv.str "A")]
    (Or.inl (Or.inl rfl))

/-! ### Claim C4 -/

/-- Claim C4, counterexample: for a valid payload without the optional
fields, the QR payload object does not serialize all ten QR-relevant
fields — the absent ones are omitted, not represented as empty/null. -/
theorem C4_counterexample :
    (qrObjOfBody demoBody).map Prod.fst = ["title", "author", "publisher", "isbn"] ∧
    ((qrObjOfBody demoBody).map Prod.fst == fieldsForQRCode) = false := by
  constructor <;> decide

/-- Claim C4, amended: a valid add stores the new record with `addedDate`
set to the current time, and its QR payload serializes the QR-relevant
fields present in the submission in canonical order, omitting absent
ones. -/
theorem C4_theorem (newId now : String) (st : Store) (body : Obj)
    (h : requiredMissing body = false) :
    (add okEncode true newId now st body).2
        = st ++ [newBookObj body (toDataURL (stringifyObj (qrObjOfBody body))) newId now] ∧
    getF (newBookObj body (toDataURL (stringifyObj (qrObjOfBody body))) newId now)
        "addedDate" = some (.str now) ∧
    (qrObjOfBody body).map Prod.fst
        = fieldsForQRCode.filter (fun k => (getF body k).isSome) := by
  refine ⟨?_, getF_newBookObj_addedDate _ _ _ _, keys_projFields _ _⟩
  rw [add_eq_of_valid newId now st body h]

/-- Claim C4, witness: the amended statement applied to the concrete
payload. -/
theorem C4_witness :
    getF (newBookObj demoBody (toDataURL (stringifyObj (qrObjOfBody demoBody)))
        demoId demoNow) "addedDate" = some (.str demoNow) :=
  (C4_theorem demoId demoNow [] demoBody (by decide)).2.1

/-! ### Totality and transitivity of the sort comparisons -/

theorem charListLe_total : ∀ a b : List Char, charListLe a b = true ∨ charListLe b a = true
  | [], _ => Or.inl rfl
  | _ :: _, [] => Or.inr rfl
  | a :: as, b :: bs => by
    rcases Nat.lt_trichotomy a.toNat b.toNat with h | h | h
    · left; simp [charListLe, h]
    · have h2 : ¬ a.toNat < b.toNat := by omega
      have h3 : ¬ b.toNat < a.toNat := by omega
      rcases charListLe_total as bs with hr | hr
      · left; simp [charListLe, h2, h3, hr]
      · right; simp [charListLe, h2, h3, hr]
    · right; simp [charListLe, h]

theorem charListLe_trans : ∀ a b c : List Char,
    charListLe a b = true → charListLe b c = true → charListLe a c = true
  | [], _, _ => fun _ _ => rfl
  | _ :: _, [], _ => fun hab => by simp [charListLe] at hab
  | _ :: _, _ :: _, [] => fun _ hbc => by simp [charListLe] at hbc
  | a :: as, b :: bs, c :: cs => fun hab hbc => by
    by_cases h1 : a.toNat < b.toNat <;> by_cases h2 : b.toNat < c.toNat
    · simp [charListLe, show a.toNat < c.toNat by omega]
    · have h3 : ¬ c.toNat < b.toNat := by
        intro hc
        simp [charListLe, h2, hc] at hbc
      have hbc' : charListLe bs cs = true := by
        simpa [charListLe, h2, h3] using hbc
      simp [charListLe, show a.toNat < c.toNat by omega]
    · have h3 : ¬ b.toNat < a.toNat := by
        intro hc
        simp [charListLe, h1, hc] at hab
      simp [charListLe, show a.toNat < c.toNat by omega]
    · have h3 : ¬ b.toNat < a.toNat := by
        intro hc
        simp [charListLe, h1, hc] at hab
      have h4 : ¬ c.toNat < b.toNat := by
        intro hc
        simp [charListLe, h2, hc] at hbc
      have hab' : charListLe as bs = true := by
        simpa [charListLe, h1, h3] using hab
      have hbc' : charListLe bs cs = true := by
        simpa [charListLe, h2, h4] using hbc
      have h5 : ¬ a.toNat < c.toNat := by omega
      have h6 : ¬ c.toNat < a.toNat := by omega
      simpa [charListLe, h5, h6] using charListLe_trans as bs cs hab' hbc'

instance (k : String) : IsTotal Obj (recLe k) :=
  ⟨fun a b => charListLe_total (fieldSortKey a k).data (fieldSortKey b k).data⟩

instance (k : String) : IsTrans Obj (recLe k) :=
  ⟨fun _ _ _ hab hbc => charListLe_trans _ _ _ hab hbc⟩

instance (k : String) : IsTotal Obj (recGe k) :=
  ⟨fun a b => (charListLe_total (fieldSortKey a k).data (fieldSortKey b k).data).symm⟩

instance (k : String) : IsTrans Obj (recGe k) :=
  ⟨fun _ _ _ hab hbc => charListLe_trans _ _ _ hbc hab⟩

/-! ### Claim C5 -/

/-- Claim C5: `listSorted` rejects any sort field outside
`{addedDate, title}` and any order outside `{asc, desc}` with a 400, and
for valid arguments returns all records (a permutation of the store)
ordered by the given field and direction. -/
theorem C5_theorem (st : Store) (sortBy ord : String) :
    (¬ (sortBy = "addedDate" ∨ sortBy = "title") →
        listSorted st sortBy ord = .text 400 "Invalid sort field") ∧
    ((sortBy = "addedDate" ∨ sortBy = "title") → ¬ (ord = "asc" ∨ ord = "desc") →
        listSorted st sortBy ord = .text 400 "Invalid sort order") ∧
    ((sortBy = "addedDate" ∨ sortBy = "title") →
        (listSorted st sortBy "asc" = .jsonList 200 (sortedRecords sortBy true st) ∧
         (sortedRecords sortBy true st).Perm st ∧
         List.Sorted (recLe sortBy) (sortedRecords sortBy true st)) ∧
        (listSorted st sortBy "desc" = .jsonList 200 (sortedRecords sortBy false st) ∧
         (sortedRecords sortBy false st).Perm st ∧
         List.Sorted (recGe sortBy) (sortedRecords sortBy false st))) := by
  refine ⟨fun hns => ?_, fun hs hno => ?_, fun hs => ?_⟩
  · have b1 : (sortBy == "addedDate") = false :=
      beq_eq_false_iff_ne.mpr fun h => hns (Or.inl h)
    have b2 : (sortBy == "title") = false :=
      beq_eq_false_iff_ne.mpr fun h => hns (Or.inr h)
    simp [listSorted, List.contains, List.elem, b1, b2]
  · have b1 : (ord == "asc") = false :=
      beq_eq_false_iff_ne.mpr fun h => hno (Or.inl h)
    have b2 : (ord == "desc") = false :=
      beq_eq_false_iff_ne.mpr fun h => hno (Or.inr h)
    rcases hs with h | h <;> subst h <;>
      simp [listSorted, List.contains, List.elem, b1, b2]
  · rcases hs with h | h <;> subst h <;>
      exact ⟨⟨by simp [listSorted, sortedRecords],
              by simpa [sortedRecords] using List.perm_insertionSort _ st,
              by simpa [sortedRecords] using List.sorted_insertionSort _ st⟩,
             ⟨by simp [listSorted, sortedRecords],
              by simpa [sortedRecords] using List.perm_insertionSort _ st,
              by simpa [sortedRecords] using List.sorted_insertionSort _ st⟩⟩

/-- The sort route on the concrete store with titles B, A, C: ascending
yields A, B, C and descending reverses it (supporting fact for C5's
example, computed directly). -/
theorem listSorted_demo :
    listSorted demoSortStore "title" "asc"
        = .jsonList 200 [[("title", Jv.str "A")], [("title", Jv.str "B")],
            [("title", Jv.str "C")]] ∧
    listSorted demoSortStore "title" "desc"
        = .jsonList 200 [[("title", Jv.str "C")], [("title", Jv.str "B")],
            [("title", Jv.str "A")]] := by
  constructor <;> decide

/-- Claim C5, witness: the invalid sort field `year` is rejected with the
400 validation response. -/
theorem C5_witness :
    listSorted demoSortStore "year" "asc" = .text 400 "Invalid sort field" :=
  (C5_theorem demoSortStore "year" "asc").1 (by decide)

/-! ### Claim C6 -/

/-- Claim C6, counterexample: for the non-digits key `x` and an empty store
no record matches, yet the detail lookup answers 500, not the 404 the claim
predicts. -/
theorem C6_counterexample :
    getByIdOrIsbn [] "x" = .text 500 "Error fetching book details" ∧
    ((getByIdOrIsbn [] "x").status == 404) = false := by
  constructor <;> decide

/-- Claim C6, amended: a digits-only key is looked up by isbn equality and
a non-digits syntactically valid id by primary id, answering 404 exactly
when no record matches; a non-digits key that is not a syntactically valid
id surfaces the 500 infrastructure error instead. -/
theorem C6_theorem (st : Store) (key : String) :
    (digitsOnly key = true →
      getByIdOrIsbn st key = match findOne st "isbn" (.str key) with
        | some b => .json 200 b
        | none => .text 404 "Book not found") ∧
    (digitsOnly key = false → isValidObjectId key = true →
      getByIdOrIsbn st key = match findOne st "_id" (.str key) with
        | some b => .json 200 b
        | none => .text 404 "Book not found") ∧
    (digitsOnly key = false → isValidObjectId key = false →
      getByIdOrIsbn st key = .text 500 "Error fetching book details") := by
  refine ⟨fun h => ?_, fun h1 h2 => ?_, fun h1 h2 => ?_⟩
  · cases hf : findOne st "isbn" (.str key) <;> simp [getByIdOrIsbn, h, hf]
  · cases hf : findOne st "_id" (.str key) <;> simp [getByIdOrIsbn, h1, h2, hf]
  · simp [getByIdOrIsbn, h1, h2]

/-- Claim C6, witness: the concrete store's id (hex letters, not
digits-only) is looked up by primary id. -/
theorem C6_witness :
    getByIdOrIsbn demoStore demoId = match findOne demoStore "_id" (.str demoId) with
      | some b => Resp.json 200 b
      | none => Resp.text 404 "Book not found" :=
  (C6_theorem demoStore demoId).2.1 (by decide) (by decide)

/-! ### Claim C7 -/

/-- Claim C7: on a valid payload, an encoder failure yields the generic 500
response with the store untouched (nothing persisted), and a store-write
failure yields the same generic 500 response. -/
theorem C7_theorem (newId now : String) (st : Store) (body : Obj)
    (h : requiredMissing body = false) :
    (∀ encode : String → Except Unit String,
        encode (stringifyObj (qrObjOfBody body)) = .error () →
        add encode true newId now st body = (.text 500 "Error adding book", st)) ∧
    add okEncode false newId now st body = (.text 500 "Error adding book", st) := by
  constructor
  · intro encode he
    simp [add, h, he]
  · simp [add, h, okEncode]

/-- Claim C7, witness: a rejecting encoder and a failing store write on the
concrete payload both answer the generic 500 and leave the store empty. -/
theorem C7_witness :
    add failEncode true demoId demoNow [] demoBody
        = (.text 500 "Error adding book", []) ∧
    add okEncode false demoId demoNow [] demoBody
        = (.text 500 "Error adding book", []) :=
  ⟨(C7_theorem demoId demoNow [] demoBody (by decide)).1 failEncode rfl,
   (C7_theorem demoId demoNow [] demoBody (by decide)).2⟩

/-! ### Claim C8 -/

/-- Claim C8: when a record with the id exists, delete removes exactly it
(the count drops by one and the id no longer resolves), and a second delete
on the same id answers 404 leaving the store unchanged; when no record
matches, delete answers 404 and the store is unchanged. -/
theorem C8_theorem (st : Store) (id : String)
    (hval : isValidObjectId id = true)
    (huniq : st.countP (hasId id) ≤ 1) :
    (∀ b, findOne st "_id" (.str id) = some b →
        deleteById st id = (.text 200 "Book deleted successfully", st.eraseP (hasId id)) ∧
        findOne (st.eraseP (hasId id)) "_id" (.str id) = none ∧
        (st.eraseP (hasId id)).length + 1 = st.length ∧
        deleteById (st.eraseP (hasId id)) id
          = (.text 404 "Book not found", st.eraseP (hasId id))) ∧
    (findOne st "_id" (.str id) = none →
        deleteById st id = (.text 404 "Book not found", st)) := by
  constructor
  · intro b hb
    have hnone : findOne (st.eraseP (hasId id)) "_id" (.str id) = none := by
      rw [findOne_id_eq]
      exact find?_eraseP_self (hasId id) st huniq
    refine ⟨?_, hnone, ?_, ?_⟩
    · simp [deleteById, hval, hb]
    · exact List.length_eraseP_add_one
        (List.mem_of_find?_eq_some (findOne_id_eq st id ▸ hb))
        (List.find?_some (findOne_id_eq st id ▸ hb))
    · simp [deleteById, hval, hnone]
  · intro hb
    simp [deleteById, hval, hb]

/-- Claim C8, witness: deleting the concrete store's record succeeds and a
second delete of the same id answers 404. -/
theorem C8_witness :
    deleteById demoStore demoId
        = (.text 200 "Book deleted successfully", demoStore.eraseP (hasId demoId)) ∧
    findOne (demoStore.eraseP (hasId demoId)) "_id" (.str demoId) = none ∧
    (demoStore.eraseP (hasId demoId)).length + 1 = demoStore.length ∧
    deleteById (demoStore.eraseP (hasId demoId)) demoId
        = (.text 404 "Book not found", demoStore.eraseP (hasId demoId)) :=
  (C8_theorem demoStore demoId (by decide) (by decide)).1 demoBook (by decide)

/-! ### Claim C9 -/

/-- Claim C9: edit validates nothing — an edit whose fields include a
`qrCode` value but no QR-relevant field stores the caller's `qrCode`
verbatim without regeneration, and a required field such as `title` can be
set to the empty string through edit. -/
theorem C9_theorem (st : Store) (id : String) (upd book : Obj) (qv : Jv)
    (hval : isValidObjectId id = true)
    (hfind : findOne st "_id" (.str id) = some book)
    (hnd : (upd.map Prod.fst).Nodup)
    (hq : shouldUpdateQRCode upd = false)
    (hmem : ("qrCode", qv) ∈ upd) :
    ((edit okEncode st id upd).1 = .json 200 (applyUpdate book upd) ∧
     getF (applyUpdate book upd) "qrCode" = some qv) ∧
    ((edit okEncode demoStore demoId [("title", Jv.str "")]).1.status = 200 ∧
     getF ((edit okEncode demoStore demoId [("title", Jv.str "")]).2.headI) "title"
        = some (.str "")) := by
  refine ⟨⟨?_, getF_applyUpdate_of_mem book upd "qrCode" qv hnd hmem (by decide)⟩,
    by decide, by decide⟩
  rw [edit_eq_of_noqr st id upd book hval hfind hq]

/-- Claim C9, witness: a caller-supplied `qrCode` on the concrete store is
stored verbatim. -/
theorem C9_witness :
    (edit okEncode demoStore demoId [("qrCode", Jv.str "HAND")]).1
        = .json 200 (applyUpdate demoBook [("qrCode", Jv.str "HAND")]) ∧
    getF (applyUpdate demoBook [("qrCode", Jv.str "HAND")]) "qrCode"
        = some (.str "HAND") :=
  (C9_theorem demoStore demoId [("qrCode", Jv.str "HAND")] demoBook (.str "HAND")
    (by decide) (by decide) (by decide) (by decide) (by decide)).1

/-! ### Claim C10 -/

/-- Claim C10: a lookup or delete key that is neither digits-only nor a
syntactically valid primary id surfaces the 500 infrastructure error, not
404. -/
theorem C10_theorem (st : Store) (key : String)
    (h1 : digitsOnly key = false) (h2 : isValidObjectId key = false) :
    getByIdOrIsbn st key = .text 500 "Error fetching book details" ∧
    deleteById st key = (.text 500 "Error deleting book", st) := by
  constructor
  · simp [getByIdOrIsbn, h1, h2]
  · simp [deleteById, h2]

/-- Claim C10, witness: a malformed key on the concrete store answers 500
on both routes. -/
theorem C10_witness :
    getByIdOrIsbn demoStore "not-a-valid-identifier"
        = .text 500 "Error fetching book details" ∧
    deleteById demoStore "not-a-valid-identifier"
        = (.text 500 "Error deleting book", demoStore) :=
  C10_theorem demoStore "not-a-valid-identifier" (by decide) (by decide)

end Books
